/-
  Verification of the cogniticy massing pipeline.

  Shallow embedding of the core generation-and-search chain:
  - `Building.generate_floors` / `_calculate_final_metrics` / `is_compliant`
    (src/core/model.py), with plane geometry abstracted to floor areas,
    since the stacking loop consumes geometry only through
    `calculate_polygon_area_m2`;
  - `BuildingEvaluator.evaluate_building` (src/optimizers/evaluator.py);
  - `GridSearchOptimizer.run_optimization` (src/optimizers/optimizer.py);
  - `apply_setbacks_to_polygon_with_identified_faces` offset-side choice
    (src/core/geometry_utils.py);
  - `Building._initialize_base_footprint` (src/core/model.py) and the
    pipeline skip guard (src/pipelines/modeling_pipeline.py);
  - the shape generators (src/generators/), over an abstract polygon
    geometry interface standing for the external shapely library;
  - `AppParams._merge_params` / `update_for_lot` (src/core/params.py).

  Python floats are modelled as rationals; the Python `while True` loop of
  `generate_floors` is modelled with an explicit iteration budget, and all
  loop invariants are proved for every budget.
-/
import Mathlib

namespace Cogniticy

/-! ## Tolerance constants

`generate_floors` (src/core/model.py) uses the literal `1.0001` in the
height-cap comparison (line 191, comment "Pequena tolerância") and the
literal `1.001` in the FAR-cap comparison (line 223); `is_compliant`
(line 320) sets `tolerance = 1.001`. -/

/-- Multiplicative slack applied to the height cap in `generate_floors`. -/
def heightCapFactor : ℚ := 1.0001

/-- Multiplicative slack applied to the FAR cap in `generate_floors`. -/
def farCapFactor : ℚ := 1.001

/-- Tolerance used by `Building.is_compliant`. -/
def complianceTolerance : ℚ := 1.001

/-- Threshold below which the lot area disables FAR bookkeeping
(`self.lot_area_m2 > 1e-6` in `generate_floors` and
`_calculate_final_metrics`). -/
def lotAreaEps : ℚ := 0.000001

/-! ## Floors and the stacking loop (`Building.generate_floors`) -/

/-- One storey, as built by `generate_floors` (class `Floor`,
src/core/model.py): `top_height = base_height + floor_height_m`, and the
floor geometry is retained only through its area. -/
structure Floor where
  floorNumber : ℕ
  baseHeight : ℚ
  topHeight : ℚ
  floorArea : ℚ
  hasVerticalSetback : Bool
  deriving Repr, DecidableEq

/-- The inputs `generate_floors` reads: the normative parameters resolved
in `Building.__init__`, the lot area, the area of the base geometry for
floors, and the re-derived envelope areas for the progressive back
setback.  `setbackFloorArea h` abstracts
`apply_setbacks_to_polygon_with_identified_faces` invoked at cumulative
height `h` with back setback `min_back + h * back_setback_percent`:
`none` stands for a `None` or empty recomputed geometry. -/
structure StackParams where
  maxHeight : ℚ
  maxFar : ℚ
  maxLotCoverage : ℚ
  gfFloorHeight : ℚ
  ufFloorHeight : ℚ
  minSetbackStartFloor : ℕ
  backSetbackPercent : ℚ
  lotArea : ℚ
  minFloorArea : ℚ
  baseEmpty : Bool
  baseArea : ℚ
  setbackFloorArea : ℚ → Option ℚ

/-- `floor_specific_height = gf if floor_num == 0 else uf`. -/
def floorHeightFor (p : StackParams) (n : ℕ) : ℚ :=
  if n = 0 then p.gfFloorHeight else p.ufFloorHeight

/-- Mutable loop state of `generate_floors`: committed floors,
`current_height_m`, `current_built_area_m2`, `floor_num`. -/
structure StackState where
  floors : List Floor
  curH : ℚ
  curArea : ℚ
  n : ℕ

/-- One iteration of the `while True` body of `generate_floors`,
parametrized by the tolerance factors; `none` means the loop breaks
before committing floor `s.n`. -/
def stackStepTol (tolH tolF : ℚ) (p : StackParams) (s : StackState) :
    Option StackState :=
  let h := floorHeightFor p s.n
  if s.curH + h > p.maxHeight * tolH then none
  else
    -- vertical-setback branch: recompute the floor geometry when
    -- floor_num >= min_setback_start_floor and back_setback_percent > 0
    let geomArea : Option (ℚ × Bool) :=
      if p.minSetbackStartFloor ≤ s.n ∧ 0 < p.backSetbackPercent then
        match p.setbackFloorArea s.curH with
        | some a => some (a, true)
        | none => none
      else some (p.baseArea, false)
    match geomArea with
    | none => none
    | some (a, hasSb) =>
      if lotAreaEps < p.lotArea ∧ p.maxFar * tolF < (s.curArea + a) / p.lotArea
      then none
      else if a < p.minFloorArea ∧ (0 < s.n ∨ a ≤ 0.01) then none
      else
        some { floors := s.floors ++
                 [⟨s.n, s.curH, s.curH + h, a, hasSb⟩],
               curH := s.curH + h,
               curArea := s.curArea + a,
               n := s.n + 1 }

/-- Run the loop for at most `fuel` iterations. -/
def generateFloorsTolAux (tolH tolF : ℚ) (p : StackParams) :
    ℕ → StackState → List Floor
  | 0, s => s.floors
  | fuel + 1, s =>
    match stackStepTol tolH tolF p s with
    | none => s.floors
    | some ns => generateFloorsTolAux tolH tolF p fuel ns

/-- `generate_floors` with explicit tolerance factors, starting from the
empty state; returns `[]` immediately when the base geometry is invalid
or empty. -/
def generateFloorsTol (tolH tolF : ℚ) (p : StackParams) (fuel : ℕ) :
    List Floor :=
  if p.baseEmpty then []
  else generateFloorsTolAux tolH tolF p fuel ⟨[], 0, 0, 0⟩

/-- `Building.generate_floors` as written: height comparison with factor
1.0001, FAR comparison with factor 1.001. -/
def generateFloors (p : StackParams) (fuel : ℕ) : List Floor :=
  generateFloorsTol heightCapFactor farCapFactor p fuel

/-! ## Aggregate metrics (`Building._calculate_final_metrics`) -/

/-- `total_built_area_m2 = sum of floor areas` (0 when no floors). -/
def totalBuiltArea (floors : List Floor) : ℚ :=
  (floors.map Floor.floorArea).sum

/-- `total_height_m = floors[-1].top_height if floors else 0`. -/
def totalHeight (floors : List Floor) : ℚ :=
  ((floors.getLast?).map Floor.topHeight).getD 0

/-- `achieved_far = total_built / lot_area` when `lot_area > 1e-6`,
else 0 (also 0 when there are no floors). -/
def achievedFar (p : StackParams) (floors : List Floor) : ℚ :=
  if lotAreaEps < p.lotArea then totalBuiltArea floors / p.lotArea else 0

/-- `achieved_lot_coverage = floors[0].area / lot_area` when
`lot_area > 1e-6`, else 0. -/
def achievedLotCoverage (p : StackParams) (floors : List Floor) : ℚ :=
  if lotAreaEps < p.lotArea then
    ((floors.head?.map Floor.floorArea).getD 0) / p.lotArea
  else 0

/-! ## Compliance (`Building.is_compliant`) and evaluation
(`BuildingEvaluator.evaluate_building`) -/

/-- One breached zoning dimension, in the order the checks appear in
`is_compliant`. -/
inductive Violation where
  | height
  | far
  | lotCoverage
  deriving Repr, DecidableEq

/-- The metric snapshot of a `Building` that `is_compliant` and
`evaluate_building` read. -/
structure BuildingMetrics where
  numFloors : ℕ
  totalHeightM : ℚ
  achievedFarV : ℚ
  achievedLotCoverageV : ℚ
  maxHeightParam : ℚ
  maxFarParam : ℚ
  maxLotCoverageParam : ℚ
  deriving Repr, DecidableEq

/-- The violation list accumulated by `Building.is_compliant`
(tolerance 1.001 on all three comparisons). -/
def violationsOf (b : BuildingMetrics) : List Violation :=
  (if b.maxHeightParam * complianceTolerance < b.totalHeightM then
    [Violation.height] else []) ++
  (if b.maxFarParam * complianceTolerance < b.achievedFarV then
    [Violation.far] else []) ++
  (if b.maxLotCoverageParam * complianceTolerance < b.achievedLotCoverageV then
    [Violation.lotCoverage] else [])

/-- `is_compliant` returns `(compliant, violations)`; `compliant` is true
exactly when no check fired. -/
def isCompliant (b : BuildingMetrics) : Bool × List Violation :=
  (violationsOf b = [], violationsOf b)

/-- `evaluate_building` under the default objective
`maximize_far_within_height`.  `none` models the `-float('inf')` returned
for a building without floors. -/
def evaluateBuilding (b : BuildingMetrics) : Option ℚ :=
  if b.numFloors = 0 then none
  else
    let v := violationsOf b
    let score0 : ℚ := if v = [] then 0 else 0 - 1000 * v.length
    if v = [] then
      let heightRatio : ℚ :=
        if lotAreaEps < b.maxHeightParam then
          b.totalHeightM / b.maxHeightParam
        else 0
      some (score0 + b.achievedFarV * 100 +
        (if heightRatio ≤ 1 then heightRatio * 10 else 0))
    else
      some (score0 -
        (if b.maxHeightParam < b.totalHeightM then
          (b.totalHeightM - b.maxHeightParam) * 5 else 0) -
        (if b.maxFarParam < b.achievedFarV then
          (b.achievedFarV - b.maxFarParam) * 50 else 0))

/-- Metric snapshot of the `Building` whose floors were produced by
`generate_floors` under parameters `p`. -/
def metricsOf (p : StackParams) (floors : List Floor) : BuildingMetrics :=
  { numFloors := floors.length
    totalHeightM := totalHeight floors
    achievedFarV := achievedFar p floors
    achievedLotCoverageV := achievedLotCoverage p floors
    maxHeightParam := p.maxHeight
    maxFarParam := p.maxFar
    maxLotCoverageParam := p.maxLotCoverage }

/-! ## Grid search (`GridSearchOptimizer.run_optimization`)

The optimizer iterates its generator list in order, each generator's
candidate list in order; a candidate whose building has no floors is
logged and skipped; otherwise its score is compared to the running best
with strict `>` (`best_score` starts at `-inf`, modelled by `none`). -/

/-- Candidates are abstract; `build` stands for
`generate_building_from_shape` followed by the metric computation, i.e.
it yields the metric snapshot of the stacked massing. -/
def optStep {γ : Type} (build : γ → BuildingMetrics)
    (best : Option (ℚ × γ)) (c : γ) : Option (ℚ × γ) :=
  if (build c).numFloors = 0 then best
  else
    match evaluateBuilding (build c) with
    | none => best
    | some score =>
      match best with
      | none => some (score, c)
      | some (bs, bc) => if bs < score then some (score, c) else some (bs, bc)

/-- Fold of `optStep` over one generator's candidate list. -/
def optRunList {γ : Type} (build : γ → BuildingMetrics)
    (best : Option (ℚ × γ)) (cs : List γ) : Option (ℚ × γ) :=
  cs.foldl (optStep build) best

/-- `run_optimization`: fold over the generators (outer loop) and their
candidates (inner loop); returns the retained candidate, `None` when the
running best was never replaced. -/
def runOptimization {γ : Type} (gens : List (List γ))
    (build : γ → BuildingMetrics) : Option γ :=
  (gens.foldl (optRunList build) none).map Prod.snd

/-- Score of a candidate whose building has floors (then
`evaluateBuilding` is `some`). -/
def scoreOf {γ : Type} (build : γ → BuildingMetrics) (c : γ) : ℚ :=
  (evaluateBuilding (build c)).getD 0

/-- The candidates the optimizer actually evaluates: those whose stacked
building has at least one floor, in generator order then candidate
order. -/
def evaluatedCands {γ : Type} (gens : List (List γ))
    (build : γ → BuildingMetrics) : List γ :=
  gens.flatten.filter (fun c => ¬ (build c).numFloors = 0)

/-! ## Offset-side choice in
`apply_setbacks_to_polygon_with_identified_faces`
(src/core/geometry_utils.py lines 181-217)

The geometric tests are abstracted into predicates on the two
`parallel_offset` candidates: `offEmpty l` is `l.is_empty`;
`midInside l` is
`original_lot_polygon.contains(midpoint(l)) or original_lot_polygon.touches(midpoint(l))`
for the interpolated midpoint of `l`; `centroidDist l` is the
distance from the lot centroid to that midpoint. -/

/-- The branch structure that picks `chosen_offset_line` from the left
and right offset candidates of one face segment. -/
def chooseOffsetLine {L : Type} (offEmpty : L → Bool) (midInside : L → Bool)
    (centroidDist : L → ℚ) (lft rgt : L) : Option L :=
  let chosen : Option L :=
    if offEmpty lft = false ∧ midInside lft = true then some lft else none
  let chosen : Option L :=
    match chosen with
    | some l => some l
    | none =>
      if offEmpty rgt = false ∧ midInside rgt = true then some rgt else none
  match chosen with
  | some l => some l
  | none =>
    if offEmpty lft = false ∧ offEmpty rgt = false then
      if centroidDist lft < centroidDist rgt then some lft else some rgt
    else none

/-! ## Abstract polygon geometry interface

The spec treats the 2-D polygon kernel (shapely) as an external,
assumed-correct collaborator, so the generators and the footprint
initialisation are embedded over an abstract interface; concrete
instances are built below for witnesses and counterexamples. -/

/-- Operations of the external polygon library that the embedded code
calls.  `subsetG a b` is the containment query `b.contains(a)` (with
boundary allowed). -/
structure GeomOps (G : Type) where
  emptyG : G
  isEmptyG : G → Bool
  areaG : G → ℚ
  subsetG : G → G → Bool
  obbG : G → G
  makeValidG : G → G
  interG : G → G → G
  unionG : G → G → G
  boundsG : G → ℚ × ℚ × ℚ × ℚ
  mkBoxG : ℚ → ℚ → ℚ → ℚ → G

/-! ## `Building._initialize_base_footprint` (src/core/model.py 128-170)
and the pipeline guard (src/pipelines/modeling_pipeline.py 99-102) -/

/-- Inputs of `_initialize_base_footprint`: whether the lot polygon is
empty or has zero area, whether recognizable identified faces were
supplied, the result of the face-aware setback derivation
(`none` = returned `None`), the three minimum setbacks, the result of
`lot.buffer(-min_overall_setback)`, and the original lot polygon. -/
structure InitInputs (G : Type) where
  lotEmptyOrZeroArea : Bool
  hasRecognizedFaces : Bool
  applySetbacksResult : Option G
  minFrontSetback : ℚ
  minBackSetback : ℚ
  minSideSetback : ℚ
  bufferNegResult : G
  lotOriginal : G

/-- The face-aware path: used only when recognizable faces exist and the
derivation yields a non-`None`, non-empty polygon. -/
def derivedViaFaces {G : Type} (ops : GeomOps G) (inp : InitInputs G) :
    Option G :=
  if inp.hasRecognizedFaces then
    match inp.applySetbacksResult with
    | some g => if ops.isEmptyG g then none else some g
    | none => none
  else none

/-- `_initialize_base_footprint`: face-aware derivation, then the uniform
negative-buffer fallback, then — when everything came out `None`/empty —
the original lot polygon itself, finally `make_geometry_valid`. -/
def initializeBaseFootprint {G : Type} (ops : GeomOps G)
    (inp : InitInputs G) : G :=
  if inp.lotEmptyOrZeroArea then ops.emptyG
  else
    let fp : G :=
      match derivedViaFaces ops inp with
      | some g => g
      | none =>
        let minOverall :=
          min inp.minFrontSetback (min inp.minBackSetback inp.minSideSetback)
        if lotAreaEps < minOverall then inp.bufferNegResult
        else inp.lotOriginal
    let fp : G := if ops.isEmptyG fp then inp.lotOriginal else fp
    ops.makeValidG fp

/-- The guard of `run_modeling_pipeline` (lines 99-102): the lot is
skipped — recorded with status "Footprint base inválido" and zero floors
— exactly when the initial footprint is `None` or empty. -/
def pipelineSkipsLot {G : Type} (ops : GeomOps G) (inp : InitInputs G) :
    Bool :=
  ops.isEmptyG (initializeBaseFootprint ops inp)

/-! ## Shape generators (src/generators/) -/

/-- `OrthogonalGenerator.generate_shapes`: the validated OBB of the base
footprint, unclipped; falls back to the base footprint itself when the
OBB comes out empty; `[]` when the base footprint is empty.  Shape
metadata (names, generation parameters) is elided. -/
def orthogonalGenerateShapes {G : Type} (ops : GeomOps G) (base : G) :
    List G :=
  if ops.isEmptyG base then []
  else
    let o := ops.makeValidG (ops.obbG base)
    if ops.isEmptyG o then
      if ops.isEmptyG base then [] else [base]
    else [o]

/-- The two L-shaped unions `CompositeGenerator.generate_shapes` builds
for one ratio from the OBB bounds, each intersected with the base
footprint and validated. -/
def compositeShapesForRatio {G : Type} (ops : GeomOps G) (base : G)
    (minx miny maxx maxy ratio : ℚ) : List G :=
  let width := maxx - minx
  let height := maxy - miny
  if width ≤ lotAreaEps ∨ height ≤ lotAreaEps ∨ ratio ≤ 0 ∨ 1 ≤ ratio then []
  else
    let leg1v := ops.mkBoxG minx miny (minx + width * ratio) maxy
    let leg2v := ops.mkBoxG minx miny maxx (miny + height * ratio)
    let lV := ops.makeValidG (ops.interG (ops.unionG leg1v leg2v) base)
    let leg1h := ops.mkBoxG minx miny maxx (miny + height * ratio)
    let leg2h := ops.mkBoxG minx miny (minx + width * ratio) maxy
    let lH := ops.makeValidG (ops.interG (ops.unionG leg1h leg2h) base)
    (if ops.isEmptyG lV = false ∧ (1 : ℚ)/10 < ops.areaG lV then [lV]
     else []) ++
    (if ops.isEmptyG lH = false ∧ (1 : ℚ)/10 < ops.areaG lH then [lH]
     else [])

/-- `CompositeGenerator.generate_shapes`: OBB bounds (falling back to the
base footprint when the OBB is empty), then the two L-shapes per
configured ratio. -/
def compositeGenerateShapes {G : Type} (ops : GeomOps G) (base : G)
    (ratios : List ℚ) : List G :=
  if ops.isEmptyG base then []
  else
    let obbF := ops.obbG base
    let obbF := if ops.isEmptyG obbF then base else obbF
    let b := ops.boundsG obbF
    ratios.flatMap
      (fun r => compositeShapesForRatio ops base b.1 b.2.1 b.2.2.1 b.2.2.2 r)

/-! ## Parameter merging (`AppParams`, src/core/params.py)

The YAML configuration tree is modelled as nested string-keyed
association lists with opaque scalar leaves. -/

/-- A configuration value: a scalar or a nested dictionary. -/
inductive PVal where
  | scalar (s : String)
  | dict (entries : List (String × PVal))
  deriving Repr

/-- Dictionary lookup (`key in merged` / `merged[key]`). -/
def lookupK : List (String × PVal) → String → Option PVal
  | [], _ => none
  | (k, v) :: rest, key => if k = key then some v else lookupK rest key

/-- Dictionary update `merged[key] = value` (replaces in place, appends
when absent). -/
def setK : List (String × PVal) → String → PVal → List (String × PVal)
  | [], key, v => [(key, v)]
  | (k, w) :: rest, key, v =>
    if k = key then (key, v) :: rest else (k, w) :: setK rest key v

/-- `AppParams._merge_params`: for each override entry, recurse when both
sides hold dictionaries at that key, otherwise overwrite. -/
def mergeParams : List (String × PVal) → List (String × PVal) →
    List (String × PVal)
  | base, [] => base
  | base, (key, v) :: rest =>
    let newV : PVal :=
      match v, lookupK base key with
      | PVal.dict dv, some (PVal.dict bv) => PVal.dict (mergeParams bv dv)
      | _, _ => v
    mergeParams (setK base key newV) rest
termination_by _ o => sizeOf o
decreasing_by
  all_goals simp_wf
  all_goals omega

/-- The mutable state of an `AppParams` instance: the defaults loaded
from `default.yaml` and the currently resolved parameters. -/
structure AppParamsState where
  baseParams : List (String × PVal)
  currentParams : List (String × PVal)
  deriving Repr

/-- `AppParams.update_for_lot`: deep-copies the stored defaults and sets
`current_params` to their merge with the lot-specific overrides (the
deep copies make the call free of aliasing, which this functional state
transformer models). -/
def updateForLot (s : AppParamsState) (o : List (String × PVal)) :
    AppParamsState :=
  { baseParams := s.baseParams
    currentParams := mergeParams s.baseParams o }

/-! ## A concrete discrete model of the geometry interface

Regions are finite sets of lattice points, given as lists of integer
pairs; containment is pointwise membership, intersection is filtering,
and the oriented bounding box is the full axis-aligned bounding box of
the point set.  This is a legitimate model of the external library's
contract (the OBB of a region contains it, an intersection is contained
in both arguments), used to instantiate the abstract theorems. -/

/-- Integer interval `[lo, hi]` as a list. -/
def intRange (lo hi : ℤ) : List ℤ :=
  (List.range (hi + 1 - lo).toNat).map (fun i => lo + (i : ℤ))

/-- All lattice points of the bounding box of a point set. -/
def latticeObb (s : List (ℤ × ℤ)) : List (ℤ × ℤ) :=
  match s with
  | [] => []
  | q :: rest =>
    let xmin := rest.foldl (fun m r => min m r.1) q.1
    let xmax := rest.foldl (fun m r => max m r.1) q.1
    let ymin := rest.foldl (fun m r => min m r.2) q.2
    let ymax := rest.foldl (fun m r => max m r.2) q.2
    (intRange xmin xmax).flatMap
      (fun x => (intRange ymin ymax).map (fun y => (x, y)))

/-- Rational bounds of a lattice point set (0s when empty). -/
def latticeBounds (s : List (ℤ × ℤ)) : ℚ × ℚ × ℚ × ℚ :=
  match s with
  | [] => (0, 0, 0, 0)
  | q :: rest =>
    ((rest.foldl (fun m r => min m r.1) q.1 : ℤ),
     (rest.foldl (fun m r => min m r.2) q.2 : ℤ),
     (rest.foldl (fun m r => max m r.1) q.1 : ℤ),
     (rest.foldl (fun m r => max m r.2) q.2 : ℤ))

/-- Lattice points of the axis-aligned box `[a, c] × [b, d]`. -/
def latticeBox (a b c d : ℚ) : List (ℤ × ℤ) :=
  (intRange ⌈a⌉ ⌊c⌋).flatMap
    (fun x => (intRange ⌈b⌉ ⌊d⌋).map (fun y => (x, y)))

/-- The lattice instance of the geometry interface. -/
def latticeOps : GeomOps (List (ℤ × ℤ)) :=
  { emptyG := []
    isEmptyG := fun s => s.isEmpty
    areaG := fun s => (s.length : ℚ)
    subsetG := fun a b => a.all (fun q => b.contains q)
    obbG := latticeObb
    makeValidG := id
    interG := fun a b => a.filter (fun q => b.contains q)
    unionG := fun a b => a ++ b.filter (fun q => !(a.contains q))
    boundsG := latticeBounds
    mkBoxG := latticeBox }

/-! ## Stacking-loop invariants and spec-side definitions -/

/-- `linked a fs b`: the floors `fs` tile the height interval from `a`
to `b` contiguously, each floor strictly taller than its base. -/
def linked : ℚ → List Floor → ℚ → Prop
  | a, [], b => a = b
  | a, f :: rest, b => f.baseHeight = a ∧ a < f.topHeight ∧
      linked f.topHeight rest b

/-- Master loop invariant of `generate_floors`: the committed floors tile
`[0, curH]`, `curArea` is their total area, and whenever a floor exists
the height and FAR caps hold at the current state. -/
def StackInv (tolH tolF : ℚ) (p : StackParams) (s : StackState) : Prop :=
  linked 0 s.floors s.curH ∧
  s.curArea = totalBuiltArea s.floors ∧
  (s.floors ≠ [] → s.curH ≤ p.maxHeight * tolH) ∧
  (s.floors ≠ [] → lotAreaEps < p.lotArea →
    s.curArea / p.lotArea ≤ p.maxFar * tolF)

/-- Modelled from the spec: §4.2 applies one and the same tolerance to
the height and FAR comparisons of the stacking loop ("Tolerance is a
fixed small multiplicative slack (e.g., 1.001) applied uniformly to
height and FAR comparisons").  Used to compare the claimed uniform
tolerance against the implementation. -/
def generateFloorsUniformTol (tol : ℚ) (p : StackParams) (fuel : ℕ) :
    List Floor :=
  generateFloorsTol tol tol p fuel

/-- The scoring formula of claim C6 amended with the guard the code
applies: the height-bonus ratio is `total_height / max_height` only when
`max_height > 1e-6`, and 0 otherwise. -/
def scoreFormulaAmended (b : BuildingMetrics) : ℚ :=
  if violationsOf b = [] then
    b.achievedFarV * 100 +
      (if (if lotAreaEps < b.maxHeightParam then
            b.totalHeightM / b.maxHeightParam else 0) ≤ 1 then
        (if lotAreaEps < b.maxHeightParam then
          b.totalHeightM / b.maxHeightParam else 0) * 10
      else 0)
  else
    0 - 1000 * (violationsOf b).length -
      (if b.maxHeightParam < b.totalHeightM then
        (b.totalHeightM - b.maxHeightParam) * 5 else 0) -
      (if b.maxFarParam < b.achievedFarV then
        (b.achievedFarV - b.maxFarParam) * 50 else 0)

/-! ## Concrete inputs used in witnesses and counterexamples -/

/-- A rectangular 100 m² lot with a 50 m² base footprint, 6 m height
cap, generous FAR cap 10, no progressive setback. -/
def sampleStackParams : StackParams :=
  { maxHeight := 6, maxFar := 10, maxLotCoverage := 1,
    gfFloorHeight := 3, ufFloorHeight := 3, minSetbackStartFloor := 5,
    backSetbackPercent := 0, lotArea := 100, minFloorArea := 1,
    baseEmpty := false, baseArea := 50, setbackFloorArea := fun _ => none }

/-- Same lot with `max_height = 2.999`: the first 3 m floor exceeds
`2.999 × 1.0001` but not `2.999 × 1.001`, separating the two tolerance
values. -/
def c2StackParams : StackParams :=
  { sampleStackParams with maxHeight := 2999/1000 }

/-- Metric snapshot with one floor, `total_height = max_height = 1e-7`,
and zero FAR and coverage: compliant, with `max_height ≤ 1e-6`. -/
def c6Metrics : BuildingMetrics :=
  { numFloors := 1, totalHeightM := 1/10000000, achievedFarV := 0,
    achievedLotCoverageV := 0, maxHeightParam := 1/10000000,
    maxFarParam := 0, maxLotCoverageParam := 0 }

/-- Concrete candidate-to-building map for the optimizer: candidate 0
yields a floorless building; candidates 1 and 2 yield identical
compliant buildings (hence identical scores). -/
def c4Build : ℕ → BuildingMetrics := fun n =>
  if n = 0 then
    { numFloors := 0, totalHeightM := 0, achievedFarV := 0,
      achievedLotCoverageV := 0, maxHeightParam := 10, maxFarParam := 1,
      maxLotCoverageParam := 1 }
  else
    { numFloors := 1, totalHeightM := 5, achievedFarV := 1,
      achievedLotCoverageV := 1/2, maxHeightParam := 10, maxFarParam := 1,
      maxLotCoverageParam := 1 }

/-- Two generators: the first produces candidates 0 and 1, the second
candidate 2. -/
def c4Gens : List (List ℕ) := [[0, 1], [2]]

/-- A tag for the two `parallel_offset` candidates of one face segment. -/
inductive OffsetSide where
  | left
  | right
  deriving Repr, DecidableEq

/-- Concrete instance for the offset-side choice: neither candidate is
empty. -/
def c7Empty : OffsetSide → Bool := fun _ => false

/-- Concrete instance: both interpolated midpoints lie inside the
parcel. -/
def c7MidInside : OffsetSide → Bool := fun _ => true

/-- Concrete instance: the right candidate's midpoint is strictly closer
to the parcel centroid. -/
def c7Dist : OffsetSide → ℚ := fun s =>
  match s with
  | OffsetSide.left => 5
  | OffsetSide.right => 1

/-- An L-shaped lattice region: its bounding box strictly contains it. -/
def lShapePoints : List (ℤ × ℤ) := [(0, 0), (1, 0), (0, 1)]

/-- Initialisation inputs for a parcel whose face-aware derivation
returns `None` and whose uniform-buffer fallback comes out empty, while
the lot polygon itself is the non-empty L-shaped region. -/
def c3InitInputs : InitInputs (List (ℤ × ℤ)) :=
  { lotEmptyOrZeroArea := false
    hasRecognizedFaces := true
    applySetbacksResult := none
    minFrontSetback := 2
    minBackSetback := 2
    minSideSetback := 2
    bufferNegResult := []
    lotOriginal := lShapePoints }

/-- Stacking parameters tied to the C3 scenario: the base geometry is
the substituted lot polygon (3 lattice cells of area), so floors are
generated from it. -/
def c3StackParams : StackParams :=
  { sampleStackParams with
      lotArea := latticeOps.areaG c3InitInputs.lotOriginal
      baseArea := latticeOps.areaG
        (initializeBaseFootprint latticeOps c3InitInputs)
      baseEmpty := latticeOps.isEmptyG
        (initializeBaseFootprint latticeOps c3InitInputs) }

/-- A degenerate geometry model on `Unit` in which every containment
query succeeds; a legitimate instance of the library contract, used to
instantiate abstract theorems. -/
def unitOps : GeomOps Unit :=
  { emptyG := ()
    isEmptyG := fun _ => false
    areaG := fun _ => 1
    subsetG := fun _ _ => true
    obbG := fun _ => ()
    makeValidG := fun _ => ()
    interG := fun _ _ => ()
    unionG := fun _ _ => ()
    boundsG := fun _ => (0, 0, 1, 1)
    mkBoxG := fun _ _ _ _ => () }

theorem linked_append {a b : ℚ} {fs : List Floor} (f : Floor)
    (h : linked a fs b) (hf : f.baseHeight = b) (hlt : b < f.topHeight) :
    linked a (fs ++ [f]) f.topHeight := by
  induction fs generalizing a with
  | nil =>
    simp only [linked] at h
    subst h
    exact ⟨hf, hf ▸ hlt, rfl⟩
  | cons g rest ih =>
    obtain ⟨h1, h2, h3⟩ := h
    exact ⟨h1, h2, ih h3⟩

theorem linked_le {a b : ℚ} {fs : List Floor} (h : linked a fs b) :
    a ≤ b := by
  induction fs generalizing a with
  | nil => exact le_of_eq h
  | cons g rest ih =>
    obtain ⟨h1, h2, h3⟩ := h
    exact le_trans (le_of_lt h2) (ih h3)

theorem linked_lt {a b : ℚ} {f : Floor} {fs : List Floor}
    (h : linked a (f :: fs) b) : a < b := by
  obtain ⟨h1, h2, h3⟩ := h
  exact lt_of_lt_of_le h2 (linked_le h3)

theorem linked_getLast {a b : ℚ} {fs : List Floor} (h : linked a fs b)
    (hne : fs ≠ []) : (fs.getLast hne).topHeight = b := by
  induction fs generalizing a with
  | nil => exact absurd rfl hne
  | cons g rest ih =>
    obtain ⟨h1, h2, h3⟩ := h
    cases rest with
    | nil =>
      simp only [linked] at h3
      simpa using h3
    | cons g2 rest2 =>
      simpa [List.getLast] using ih h3 (by simp)

theorem linked_totalHeight {a b : ℚ} {fs : List Floor}
    (h : linked a fs b) (hne : fs ≠ []) : totalHeight fs = b := by
  have := linked_getLast h hne
  simp only [totalHeight, List.getLast?_eq_getLast fs hne]
  simpa using this

theorem linked_chain {a b : ℚ} {fs : List Floor} (h : linked a fs b) :
    ∀ i : ℕ, ∀ hi : i + 1 < fs.length,
      (fs.get ⟨i + 1, hi⟩).baseHeight =
        (fs.get ⟨i, Nat.lt_of_succ_lt hi⟩).topHeight ∧
      (fs.get ⟨i, Nat.lt_of_succ_lt hi⟩).baseHeight <
        (fs.get ⟨i + 1, hi⟩).baseHeight := by
  induction fs generalizing a with
  | nil => intro i hi; simp at hi
  | cons g rest ih =>
    intro i hi
    obtain ⟨h1, h2, h3⟩ := h
    cases i with
    | zero =>
      cases rest with
      | nil => simp at hi
      | cons g2 rest2 =>
        obtain ⟨h4, h5, h6⟩ := h3
        refine ⟨by simpa using h4.symm ▸ rfl, ?_⟩
        simp only [List.get]
        rw [h1, h4]
        exact h2
    | succ j =>
      have := ih h3 j (by simpa using hi)
      simpa using this

theorem linked_head {a b : ℚ} {fs : List Floor} (h : linked a fs b)
    (hne : fs ≠ []) : (fs.head hne).baseHeight = a := by
  cases fs with
  | nil => exact absurd rfl hne
  | cons g rest => exact h.1

theorem stackStepTol_eq_some {tolH tolF : ℚ} {p : StackParams}
    {s ns : StackState} (h : stackStepTol tolH tolF p s = some ns) :
    ∃ a hasSb,
      ns = { floors := s.floors ++
               [⟨s.n, s.curH, s.curH + floorHeightFor p s.n, a, hasSb⟩],
             curH := s.curH + floorHeightFor p s.n,
             curArea := s.curArea + a,
             n := s.n + 1 } ∧
      s.curH + floorHeightFor p s.n ≤ p.maxHeight * tolH ∧
      (lotAreaEps < p.lotArea →
        (s.curArea + a) / p.lotArea ≤ p.maxFar * tolF) := by
  unfold stackStepTol at h
  rcases hcase : (if p.minSetbackStartFloor ≤ s.n ∧ 0 < p.backSetbackPercent
      then
        match p.setbackFloorArea s.curH with
        | some a => some (a, true)
        | none => none
      else some (p.baseArea, false)) with _ | ⟨a, hasSb⟩
  · rw [hcase] at h
    rw [ite_self] at h
    exact absurd h (by simp)
  · rw [hcase] at h
    simp only [] at h
    split at h
    · exact absurd h (by simp)
    next hguard =>
      split at h
      · exact absurd h (by simp)
      next hfar =>
        split at h
        · exact absurd h (by simp)
        next hmin =>
          refine ⟨a, hasSb, by simpa using h.symm, not_lt.mp hguard, ?_⟩
          intro hlot
          by_contra hgt
          exact hfar ⟨hlot, not_le.mp hgt⟩

theorem stackStepTol_inv {tolH tolF : ℚ} {p : StackParams}
    {s ns : StackState} (hgf : 0 < p.gfFloorHeight)
    (huf : 0 < p.ufFloorHeight)
    (hinv : StackInv tolH tolF p s)
    (h : stackStepTol tolH tolF p s = some ns) :
    StackInv tolH tolF p ns := by
  obtain ⟨a, hasSb, hns, hcap, hfar⟩ := stackStepTol_eq_some h
  obtain ⟨hlink, harea, _, _⟩ := hinv
  have hpos : 0 < floorHeightFor p s.n := by
    unfold floorHeightFor
    split
    · exact hgf
    · exact huf
  subst hns
  refine ⟨?_, ?_, ?_, ?_⟩
  · exact linked_append _ hlink rfl (lt_add_of_pos_right _ hpos)
  · simp [totalBuiltArea, harea]
  · intro _
    exact hcap
  · intro _ hlot
    exact hfar hlot

theorem generateFloorsTolAux_inv (tolH tolF : ℚ) (p : StackParams)
    (hgf : 0 < p.gfFloorHeight) (huf : 0 < p.ufFloorHeight) :
    ∀ fuel : ℕ, ∀ s : StackState, StackInv tolH tolF p s →
      ∃ s' : StackState,
        generateFloorsTolAux tolH tolF p fuel s = s'.floors ∧
        StackInv tolH tolF p s' := by
  intro fuel
  induction fuel with
  | zero => intro s hs; exact ⟨s, rfl, hs⟩
  | succ n ih =>
    intro s hs
    unfold generateFloorsTolAux
    rcases hstep : stackStepTol tolH tolF p s with _ | ns
    · exact ⟨s, rfl, hs⟩
    · exact ih ns (stackStepTol_inv hgf huf hs hstep)

theorem generateFloorsTol_inv (tolH tolF : ℚ) (p : StackParams)
    (hgf : 0 < p.gfFloorHeight) (huf : 0 < p.ufFloorHeight) (fuel : ℕ) :
    ∃ s' : StackState,
      (generateFloorsTol tolH tolF p fuel = s'.floors ∨
        generateFloorsTol tolH tolF p fuel = []) ∧
      StackInv tolH tolF p s' := by
  unfold generateFloorsTol
  split
  · exact ⟨⟨[], 0, 0, 0⟩, Or.inr rfl, by simp [StackInv, linked, totalBuiltArea]⟩
  · obtain ⟨s', h1, h2⟩ := generateFloorsTolAux_inv tolH tolF p hgf huf fuel
      ⟨[], 0, 0, 0⟩ (by simp [StackInv, linked, totalBuiltArea])
    exact ⟨s', Or.inl h1, h2⟩

/-- FAR-only variant of the loop invariant, free of any positivity
assumption on the floor heights. -/
theorem generateFloorsTolAux_far (tolH tolF : ℚ) (p : StackParams) :
    ∀ fuel : ℕ, ∀ s : StackState,
      s.curArea = totalBuiltArea s.floors →
      (s.floors ≠ [] → lotAreaEps < p.lotArea →
        s.curArea / p.lotArea ≤ p.maxFar * tolF) →
      ∃ s' : StackState,
        generateFloorsTolAux tolH tolF p fuel s = s'.floors ∧
        s'.curArea = totalBuiltArea s'.floors ∧
        (s'.floors ≠ [] → lotAreaEps < p.lotArea →
          s'.curArea / p.lotArea ≤ p.maxFar * tolF) := by
  intro fuel
  induction fuel with
  | zero => intro s h1 h2; exact ⟨s, rfl, h1, h2⟩
  | succ n ih =>
    intro s h1 h2
    unfold generateFloorsTolAux
    rcases hstep : stackStepTol tolH tolF p s with _ | ns
    · exact ⟨s, rfl, h1, h2⟩
    · obtain ⟨a, hasSb, hns, _, hfar⟩ := stackStepTol_eq_some hstep
      subst hns
      refine ih _ (by simp [totalBuiltArea, h1]) ?_
      intro _ hlot
      exact hfar hlot

/-! ## Claim C5 -/

/-- C5: every massing produced by the floor-stacking procedure (with
positive floor heights) has `floors[0].base_height = 0`, each later
floor based exactly at the previous floor's top with strictly
increasing base heights, and total height at most
`max_height × 1.001`. -/
theorem claim_C5 (p : StackParams) (fuel : ℕ)
    (hgf : 0 < p.gfFloorHeight) (huf : 0 < p.ufFloorHeight) :
    (∀ hne : generateFloors p fuel ≠ [],
      ((generateFloors p fuel).head hne).baseHeight = 0) ∧
    (∀ i : ℕ, ∀ hi : i + 1 < (generateFloors p fuel).length,
      ((generateFloors p fuel).get ⟨i + 1, hi⟩).baseHeight =
        ((generateFloors p fuel).get ⟨i, Nat.lt_of_succ_lt hi⟩).topHeight ∧
      ((generateFloors p fuel).get ⟨i, Nat.lt_of_succ_lt hi⟩).baseHeight <
        ((generateFloors p fuel).get ⟨i + 1, hi⟩).baseHeight) ∧
    (∀ _hne : generateFloors p fuel ≠ [],
      totalHeight (generateFloors p fuel) ≤ p.maxHeight * (1.001 : ℚ)) := by
  obtain ⟨s', hor, hlink, _, hcap, _⟩ :=
    generateFloorsTol_inv heightCapFactor farCapFactor p hgf huf fuel
  have hgen : generateFloors p fuel =
      generateFloorsTol heightCapFactor farCapFactor p fuel := rfl
  rcases hor with heq | heq
  · rw [hgen, heq]
    refine ⟨fun hne => linked_head hlink hne, fun i hi => linked_chain hlink i hi,
      fun hne => ?_⟩
    rw [linked_totalHeight hlink hne]
    have h1 : 0 < s'.curH := by
      cases hfs : s'.floors with
      | nil => exact absurd hfs hne
      | cons f rest => exact linked_lt (hfs ▸ hlink)
    have h2 : s'.curH ≤ p.maxHeight * 1.0001 := by
      have := hcap hne
      simpa [heightCapFactor] using this
    have hm : 0 < p.maxHeight := by nlinarith
    have h3 : p.maxHeight * (1.0001 : ℚ) ≤ p.maxHeight * 1.001 := by
      have := mul_le_mul_of_nonneg_left (show (1.0001 : ℚ) ≤ 1.001 by norm_num)
        (le_of_lt hm)
      linarith
    linarith
  · rw [hgen, heq]
    refine ⟨fun hne => absurd rfl hne, fun i hi => by simp at hi,
      fun hne => absurd rfl hne⟩

/-- Witness for C5 at the sample parameters: a concrete two-floor run
whose total height respects the 1.001 slack. -/
theorem claim_C5_witness :
    totalHeight (generateFloors sampleStackParams 4) ≤
      sampleStackParams.maxHeight * (1.001 : ℚ) :=
  (claim_C5 sampleStackParams 4 (by norm_num [sampleStackParams])
    (by norm_num [sampleStackParams])).2.2
    (by norm_num [generateFloors, generateFloorsTol, generateFloorsTolAux,
      stackStepTol, floorHeightFor, sampleStackParams, lotAreaEps,
      heightCapFactor, farCapFactor]; simp)

/-! ## Claim C2 -/

/-- C2 counterexample: with `max_height = 2.999` and a 3 m ground floor,
the loop as written (height tolerance 1.0001) builds no floor, while the
same loop under the claimed uniform 1.001 tolerance builds one; and the
height-cap factor differs from the compliance tolerance. -/
theorem claim_C2_counterexample :
    (generateFloors c2StackParams 4).length = 0 ∧
    (generateFloorsUniformTol complianceTolerance c2StackParams 4).length = 1 ∧
    heightCapFactor ≠ complianceTolerance := by
  refine ⟨?_, ?_, by norm_num [heightCapFactor, complianceTolerance]⟩ <;>
    norm_num [generateFloors, generateFloorsTol, generateFloorsUniformTol,
      generateFloorsTolAux, stackStepTol, floorHeightFor, c2StackParams,
      sampleStackParams, lotAreaEps, heightCapFactor, farCapFactor,
      complianceTolerance]

/-- C2 (amended): the FAR-cap comparison and the compliance check share
the tolerance 1.001, but the height-cap comparison of the stacking loop
uses the smaller tolerance 1.0001. -/
theorem claim_C2_amended :
    heightCapFactor = 1.0001 ∧ farCapFactor = 1.001 ∧
    complianceTolerance = 1.001 ∧ farCapFactor = complianceTolerance ∧
    heightCapFactor ≠ farCapFactor ∧
    ∀ (p : StackParams) (fuel : ℕ),
      generateFloors p fuel =
        generateFloorsTol heightCapFactor farCapFactor p fuel :=
  ⟨rfl, rfl, rfl, rfl, by norm_num [heightCapFactor, farCapFactor],
    fun _ _ => rfl⟩

/-! ## Claim C8 -/

/-- C8 (amended): every generated massing satisfies
`achieved_FAR ≤ max_FAR × 1.001` (for a nonnegative FAR cap); the
further part of the original claim — that one more floor of the last
floor's area would always exceed the cap — is refuted separately. -/
theorem claim_C8_amended (p : StackParams) (fuel : ℕ)
    (hfar : 0 ≤ p.maxFar) :
    achievedFar p (generateFloors p fuel) ≤ p.maxFar * (1.001 : ℚ) := by
  have hnn : (0 : ℚ) ≤ p.maxFar * 1.001 := by
    have := mul_le_mul_of_nonneg_left (show (0 : ℚ) ≤ 1.001 by norm_num) hfar
    linarith
  unfold generateFloors generateFloorsTol
  split
  · simpa [achievedFar, totalBuiltArea] using hnn
  · obtain ⟨s', heq, harea, hbound⟩ :=
      generateFloorsTolAux_far heightCapFactor farCapFactor p fuel
        ⟨[], 0, 0, 0⟩ (by simp [totalBuiltArea]) (by simp)
    rw [heq]
    unfold achievedFar
    split
    next hlot =>
      cases hfs : s'.floors with
      | nil => simpa [hfs, totalBuiltArea] using hnn
      | cons f rest =>
        have := hbound (by simp [hfs]) hlot
        rw [harea, hfs] at this
        simpa [farCapFactor] using this
    next => exact hnn

/-- Witness for the amended C8 at the sample parameters. -/
theorem claim_C8_amended_witness :
    achievedFar sampleStackParams (generateFloors sampleStackParams 4) ≤
      sampleStackParams.maxFar * (1.001 : ℚ) :=
  claim_C8_amended sampleStackParams 4 (by norm_num [sampleStackParams])

/-- C8 counterexample: the sample run stops at two floors because of the
height cap, with so much FAR slack that a hypothetical extra floor of
the last floor's area would still be far below `max_FAR × 1.001`. -/
theorem claim_C8_counterexample :
    (generateFloors sampleStackParams 4).length = 2 ∧
    ¬ (sampleStackParams.maxFar * (1.001 : ℚ) <
        (totalBuiltArea (generateFloors sampleStackParams 4) +
          (((generateFloors sampleStackParams 4).getLast?.map
            Floor.floorArea).getD 0)) / sampleStackParams.lotArea) := by
  constructor <;>
    norm_num [generateFloors, generateFloorsTol, generateFloorsTolAux,
      stackStepTol, floorHeightFor, sampleStackParams, lotAreaEps,
      heightCapFactor, farCapFactor, totalBuiltArea]

/-! ## Claim C10 -/

/-- C10: a building with zero floors and nonnegative zoning limits has
all aggregate metrics 0, is reported compliant with an empty violation
list, and is nevertheless scored minus infinity (`none`) by the
evaluator. -/
theorem claim_C10 (p : StackParams) (hh : 0 ≤ p.maxHeight)
    (hf : 0 ≤ p.maxFar) (hc : 0 ≤ p.maxLotCoverage) :
    totalHeight ([] : List Floor) = 0 ∧
    totalBuiltArea ([] : List Floor) = 0 ∧
    achievedFar p [] = 0 ∧
    achievedLotCoverage p [] = 0 ∧
    isCompliant (metricsOf p []) = (true, []) ∧
    evaluateBuilding (metricsOf p []) = none := by
  have hfar0 : achievedFar p [] = 0 := by
    unfold achievedFar
    split <;> simp [totalBuiltArea]
  have hcov0 : achievedLotCoverage p [] = 0 := by
    unfold achievedLotCoverage
    split <;> simp
  have hv : violationsOf (metricsOf p []) = [] := by
    have t1 : ¬ (p.maxHeight * complianceTolerance < totalHeight []) := by
      refine not_lt.mpr ?_
      show totalHeight [] ≤ _
      rw [show totalHeight [] = 0 from rfl]
      exact mul_nonneg hh (by norm_num [complianceTolerance])
    have t2 : ¬ (p.maxFar * complianceTolerance < achievedFar p []) := by
      refine not_lt.mpr ?_
      rw [hfar0]
      exact mul_nonneg hf (by norm_num [complianceTolerance])
    have t3 : ¬ (p.maxLotCoverage * complianceTolerance <
        achievedLotCoverage p []) := by
      refine not_lt.mpr ?_
      rw [hcov0]
      exact mul_nonneg hc (by norm_num [complianceTolerance])
    simp [violationsOf, metricsOf, t1, t2, t3]
  refine ⟨rfl, rfl, hfar0, hcov0, ?_, ?_⟩
  · simp [isCompliant, hv]
  · simp [evaluateBuilding, metricsOf]

/-- Witness for C10 at the sample parameters. -/
theorem claim_C10_witness :
    isCompliant (metricsOf sampleStackParams []) = (true, []) ∧
    evaluateBuilding (metricsOf sampleStackParams []) = none :=
  (claim_C10 sampleStackParams (by norm_num [sampleStackParams])
    (by norm_num [sampleStackParams])
    (by norm_num [sampleStackParams])).2.2.2.2

/-! ## Claim C6 -/

/-- C6 counterexample: a compliant one-floor massing with
`total_height = max_height = 1e-7` is scored 0 by the code (the height
ratio is zeroed because `max_height ≤ 1e-6`), while the claim's formula
`achieved_FAR × 100 + (total_height / max_height) × 10` gives 10 even
though the ratio is ≤ 1. -/
theorem claim_C6_counterexample :
    evaluateBuilding c6Metrics = some 0 ∧
    (isCompliant c6Metrics).1 = true ∧
    c6Metrics.numFloors = 1 ∧
    c6Metrics.totalHeightM / c6Metrics.maxHeightParam ≤ 1 ∧
    c6Metrics.achievedFarV * 100 +
      (c6Metrics.totalHeightM / c6Metrics.maxHeightParam) * 10 = 10 ∧
    (0 : ℚ) ≠ 10 := by
  norm_num [evaluateBuilding, violationsOf, isCompliant, c6Metrics,
    lotAreaEps, complianceTolerance]

/-- C6 (amended): `evaluate_building` returns minus infinity (`none`)
for a zero-floor massing; otherwise it returns the claimed score with
the guard the code applies — the height-bonus ratio is
`total_height / max_height` only when `max_height > 1e-6` and 0
otherwise, added only when ≤ 1; non-compliant massings score
`−1000 × violations − 5 × height excess − 50 × FAR excess`. -/
theorem claim_C6_amended (b : BuildingMetrics) :
    (b.numFloors = 0 → evaluateBuilding b = none) ∧
    (b.numFloors ≠ 0 → evaluateBuilding b = some (scoreFormulaAmended b)) := by
  constructor
  · intro h
    simp [evaluateBuilding, h]
  · intro h
    unfold evaluateBuilding scoreFormulaAmended
    rw [if_neg h]
    split_ifs with hv h1 <;> simp_all

/-- Witness for the amended C6 at the concrete compliant metrics. -/
theorem claim_C6_amended_witness :
    evaluateBuilding c6Metrics = some (scoreFormulaAmended c6Metrics) :=
  (claim_C6_amended c6Metrics).2 (by norm_num [c6Metrics])

/-! ## Optimizer correctness -/

theorem evaluateBuilding_isSome (b : BuildingMetrics)
    (h : ¬ b.numFloors = 0) : ∃ q, evaluateBuilding b = some q := by
  by_cases hv : violationsOf b = [] <;>
    simp [evaluateBuilding, h, hv]

/-- Characterization of the optimizer's running-best fold over one flat
candidate list: it returns `none` exactly when every candidate is
skipped, and otherwise the earliest candidate whose score attains the
maximum (earlier candidates score strictly less, later ones at most as
much). -/
theorem optFold_spec {γ : Type} (build : γ → BuildingMetrics)
    (l : List γ) :
    (l.foldl (optStep build) none = none ↔
      l.filter (fun c => ¬ (build c).numFloors = 0) = []) ∧
    ∀ s c, l.foldl (optStep build) none = some (s, c) →
      s = scoreOf build c ∧
      ∃ l₁ l₂,
        l.filter (fun c => ¬ (build c).numFloors = 0) = l₁ ++ c :: l₂ ∧
        (∀ d ∈ l₁, scoreOf build d < s) ∧
        (∀ d ∈ l₂, scoreOf build d ≤ s) := by
  induction l using List.reverseRecOn with
  | nil => simp
  | append_singleton l c ih =>
    rw [List.foldl_append, List.filter_append]
    by_cases hc : (build c).numFloors = 0
    · have hskip : List.foldl (optStep build)
          (List.foldl (optStep build) none l) [c] =
          List.foldl (optStep build) none l := by
        simp only [List.foldl_cons, List.foldl_nil, optStep, if_pos hc]
      have hfc : List.filter (fun c => decide ¬ (build c).numFloors = 0) [c]
          = [] := by simp [hc]
      rw [hskip, hfc, List.append_nil]
      exact ih
    · obtain ⟨q, hq⟩ := evaluateBuilding_isSome (build c) hc
      have hsc : scoreOf build c = q := by simp [scoreOf, hq]
      have hfc : List.filter (fun c => decide ¬ (build c).numFloors = 0) [c]
          = [c] := by simp [hc]
      rw [hfc]
      have hstep : ∀ best, optStep build best c =
          match best with
          | none => some (q, c)
          | some (bs, bc) => if bs < q then some (q, c) else some (bs, bc) := by
        intro best
        simp only [optStep, if_neg hc, hq]
      rcases hb : List.foldl (optStep build) none l with _ | ⟨bs, bc⟩
      · have hemp := ih.1.mp hb
        simp only [List.foldl_cons, List.foldl_nil, hb, hstep, hemp,
          List.nil_append]
        constructor
        · simp
        · intro s c0 hs0
          obtain ⟨h1, h2⟩ := Prod.mk.injEq .. ▸ Option.some.inj hs0
          subst h1; subst h2
          exact ⟨hsc.symm, [], [], rfl, by simp, by simp⟩
      · obtain ⟨hbs, l₁, l₂, hsplit, hlt, hle⟩ := ih.2 bs bc hb
        simp only [List.foldl_cons, List.foldl_nil, hb, hstep]
        by_cases hcomp : bs < q
        · rw [if_pos hcomp]
          constructor
          · constructor
            · intro hcontra; exact absurd hcontra (by simp)
            · intro hcontra
              exact absurd (congrArg List.length hcontra) (by simp)
          · intro s c0 hs0
            obtain ⟨h1, h2⟩ := Prod.mk.injEq .. ▸ Option.some.inj hs0
            subst h1; subst h2
            refine ⟨hsc.symm, l.filter (fun c => ¬ (build c).numFloors = 0),
              [], by simp, ?_, by simp⟩
            intro d hd
            rw [hsplit] at hd
            rcases List.mem_append.mp hd with hd1 | hd2
            · exact lt_trans (hlt d hd1) hcomp
            · rcases List.mem_cons.mp hd2 with hd3 | hd4
              · rw [hd3, ← hbs]; exact hcomp
              · exact lt_of_le_of_lt (hle d hd4) hcomp
        · rw [if_neg hcomp]
          constructor
          · constructor
            · intro hcontra; exact absurd hcontra (by simp)
            · intro hcontra
              exact absurd (congrArg List.length hcontra) (by simp)
          · intro s c0 hs0
            obtain ⟨h1, h2⟩ := Prod.mk.injEq .. ▸ Option.some.inj hs0
            subst h1; subst h2
            refine ⟨hbs, l₁, l₂ ++ [c], by rw [hsplit]; simp, hlt, ?_⟩
            intro d hd
            rcases List.mem_append.mp hd with hd1 | hd2
            · exact hle d hd1
            · rw [List.mem_singleton.mp hd2, hsc]
              exact not_lt.mp hcomp

/-! ## Claim C4 -/

/-- C4: `run_optimization` returns `None` exactly when no candidate (in
generator order, then candidate order) yields a massing with at least
one floor; otherwise it returns the earliest evaluated candidate whose
score attains the maximum — all earlier evaluated candidates score
strictly less (strict greater-than comparison: an equal later score
never replaces the incumbent), all later ones at most as much. -/
theorem claim_C4 {γ : Type} (gens : List (List γ))
    (build : γ → BuildingMetrics) :
    (runOptimization gens build = none ↔
      ∀ c ∈ gens.flatten, (build c).numFloors = 0) ∧
    ∀ c, runOptimization gens build = some c →
      c ∈ evaluatedCands gens build ∧
      ∃ l₁ l₂,
        evaluatedCands gens build = l₁ ++ c :: l₂ ∧
        (∀ d ∈ l₁, scoreOf build d < scoreOf build c) ∧
        (∀ d ∈ l₂, scoreOf build d ≤ scoreOf build c) := by
  have key := optFold_spec build gens.flatten
  have hfold : gens.foldl (optRunList build) none =
      gens.flatten.foldl (optStep build) none :=
    (List.foldl_flatten (optStep build) none gens).symm
  unfold runOptimization optRunList evaluatedCands
  rw [show gens.foldl (fun best cs => cs.foldl (optStep build) best) none =
      gens.flatten.foldl (optStep build) none from hfold]
  constructor
  · rw [Option.map_eq_none', key.1, List.filter_eq_nil_iff]
    simp
  · intro c hc
    obtain ⟨⟨s, c2⟩, hsome, hc2⟩ := Option.map_eq_some'.mp hc
    simp only at hc2
    obtain ⟨hs, l₁, l₂, hsplit, hlt, hle⟩ := key.2 s c2 hsome
    subst hs
    rw [← hc2]
    exact ⟨by rw [hsplit]; simp, l₁, l₂, hsplit, hlt, hle⟩

/-- Witness for C4: two generators with candidates `[[0, 1], [2]]`,
candidate 0 floorless, candidates 1 and 2 tied at the maximum score —
the optimizer returns candidate 1, the first of the tie. -/
theorem claim_C4_witness :
    1 ∈ evaluatedCands c4Gens c4Build ∧
    ∃ l₁ l₂,
      evaluatedCands c4Gens c4Build = l₁ ++ 1 :: l₂ ∧
      (∀ d ∈ l₁, scoreOf c4Build d < scoreOf c4Build 1) ∧
      (∀ d ∈ l₂, scoreOf c4Build d ≤ scoreOf c4Build 1) :=
  (claim_C4 c4Gens c4Build).2 1
    (by norm_num [runOptimization, optRunList, optStep, c4Gens, c4Build,
      evaluateBuilding, violationsOf, lotAreaEps, complianceTolerance,
      scoreOf])

/-! ## Claim C7 -/

/-- C7 counterexample: both offset midpoints lie inside the parcel and
the right candidate is strictly closer to the centroid, yet the code
retains the left candidate (the inside test prefers the left offset and
never consults the centroid distance when it succeeds). -/
theorem claim_C7_counterexample :
    c7MidInside OffsetSide.left = true ∧
    c7MidInside OffsetSide.right = true ∧
    c7Empty OffsetSide.left = false ∧
    c7Empty OffsetSide.right = false ∧
    c7Dist OffsetSide.right < c7Dist OffsetSide.left ∧
    chooseOffsetLine c7Empty c7MidInside c7Dist OffsetSide.left
      OffsetSide.right = some OffsetSide.left := by
  refine ⟨rfl, rfl, rfl, rfl, by norm_num [c7Dist], rfl⟩

/-- C7 (amended): the offset-side choice first retains the left
candidate whenever its midpoint qualifies (regardless of the right
candidate), then the right candidate when it alone qualifies; the
closer-to-centroid tie-break applies only when neither midpoint
qualifies and both candidates are non-empty, and nothing is retained
when neither qualifies and some candidate is empty. -/
theorem claim_C7_amended {L : Type} (offE midIn : L → Bool)
    (dist : L → ℚ) (lft rgt : L) :
    (offE lft = false ∧ midIn lft = true →
      chooseOffsetLine offE midIn dist lft rgt = some lft) ∧
    (¬ (offE lft = false ∧ midIn lft = true) →
      offE rgt = false ∧ midIn rgt = true →
      chooseOffsetLine offE midIn dist lft rgt = some rgt) ∧
    (¬ (offE lft = false ∧ midIn lft = true) →
      ¬ (offE rgt = false ∧ midIn rgt = true) →
      offE lft = false → offE rgt = false →
      chooseOffsetLine offE midIn dist lft rgt =
        (if dist lft < dist rgt then some lft else some rgt)) ∧
    (¬ (offE lft = false ∧ midIn lft = true) →
      ¬ (offE rgt = false ∧ midIn rgt = true) →
      ¬ (offE lft = false ∧ offE rgt = false) →
      chooseOffsetLine offE midIn dist lft rgt = none) := by
  refine ⟨?_, ?_, ?_, ?_⟩
  · intro h1
    simp [chooseOffsetLine, h1]
  · intro h1 h2
    simp [chooseOffsetLine, h1, h2]
  · intro h1 h2 h3 h4
    have hml : ¬ midIn lft = true := fun hm => h1 ⟨h3, hm⟩
    have hmr : ¬ midIn rgt = true := fun hm => h2 ⟨h4, hm⟩
    simp [chooseOffsetLine, h3, h4, hml, hmr]
  · intro h1 h2 h3
    by_cases hel : offE lft = false
    · have her : ¬ offE rgt = false := fun h => h3 ⟨hel, h⟩
      have hml : ¬ midIn lft = true := fun hm => h1 ⟨hel, hm⟩
      simp [chooseOffsetLine, hel, her, hml]
    · simp [chooseOffsetLine, hel, h2]

/-- Witness for the amended C7: when neither midpoint qualifies, the
centroid comparison decides. -/
theorem claim_C7_amended_witness :
    chooseOffsetLine c7Empty (fun _ => false) c7Dist OffsetSide.left
      OffsetSide.right =
    (if c7Dist OffsetSide.left < c7Dist OffsetSide.right then
      some OffsetSide.left else some OffsetSide.right) :=
  (claim_C7_amended c7Empty (fun _ => false) c7Dist OffsetSide.left
    OffsetSide.right).2.2.1 (by simp) (by simp) rfl rfl

/-! ## Claim C9 -/

/-- C9: `update_for_lot` leaves the stored defaults untouched and sets
`current_params` to the deep merge of those defaults with the override
dictionary, so the result is independent of any earlier
`update_for_lot` call and repeating the same call changes nothing. -/
theorem claim_C9 (s : AppParamsState) (o o2 : List (String × PVal)) :
    (updateForLot s o).baseParams = s.baseParams ∧
    (updateForLot s o).currentParams = mergeParams s.baseParams o ∧
    updateForLot (updateForLot s o2) o = updateForLot s o ∧
    updateForLot (updateForLot s o) o = updateForLot s o :=
  ⟨rfl, rfl, rfl, rfl⟩

/-! ## Claim C1 -/

/-- In the lattice model an intersection with `b` is contained in `b`:
the library-contract fact behind the composite generator's clipping. -/
theorem lattice_inter_subset (a b : List (ℤ × ℤ)) :
    latticeOps.subsetG (latticeOps.makeValidG (latticeOps.interG a b)) b
      = true := by
  rw [show latticeOps.subsetG (latticeOps.makeValidG (latticeOps.interG a b)) b
      = (a.filter (fun q => b.contains q)).all (fun q => b.contains q)
    from rfl]
  rw [List.all_eq_true]
  intro x hx
  exact (List.mem_filter.mp hx).2

/-- C1 counterexample: for the (non-convex) L-shaped base envelope, the
orthogonal generator returns its oriented bounding box unclipped, and
that candidate is not contained in the envelope. -/
theorem claim_C1_counterexample :
    orthogonalGenerateShapes latticeOps lShapePoints =
      [[(0, 0), (0, 1), (1, 0), (1, 1)]] ∧
    latticeOps.subsetG [(0, 0), (0, 1), (1, 0), (1, 1)] lShapePoints
      = false ∧
    latticeOps.isEmptyG lShapePoints = false := by
  refine ⟨?_, by decide, by decide⟩
  decide

/-- C1 (amended): under the external library's contract, every
composite candidate is contained in the base envelope (each L-shape is
intersected with it), but the orthogonal candidate is the validated OBB
of the envelope, which *contains* the envelope instead of being
contained in it (no clipping is applied). -/
theorem claim_C1_amended {G : Type} (ops : GeomOps G) (base : G)
    (ratios : List ℚ)
    (hInter : ∀ a b : G,
      ops.subsetG (ops.makeValidG (ops.interG a b)) b = true)
    (hObb : ops.subsetG base (ops.makeValidG (ops.obbG base)) = true)
    (hRefl : ops.subsetG base base = true) :
    (∀ s ∈ compositeGenerateShapes ops base ratios,
      ops.subsetG s base = true) ∧
    (∀ s ∈ orthogonalGenerateShapes ops base,
      ops.subsetG base s = true) := by
  have hratio : ∀ minx miny maxx maxy r : ℚ, ∀ s,
      s ∈ compositeShapesForRatio ops base minx miny maxx maxy r →
      ops.subsetG s base = true := by
    intro minx miny maxx maxy r s hs
    unfold compositeShapesForRatio at hs
    simp only [] at hs
    split at hs
    · simp at hs
    · rcases List.mem_append.mp hs with hm | hm <;>
      · split at hm
        · rw [List.mem_singleton.mp hm]
          exact hInter _ _
        · simp at hm
  constructor
  · intro s hs
    unfold compositeGenerateShapes at hs
    split at hs
    · simp at hs
    · simp only [List.mem_flatMap] at hs
      obtain ⟨r, _, hmem⟩ := hs
      exact hratio _ _ _ _ r s hmem
  · intro s hs
    unfold orthogonalGenerateShapes at hs
    simp only [] at hs
    split at hs
    · simp at hs
    · split at hs
      · rw [List.mem_singleton.mp hs]
        exact hRefl
      · rw [List.mem_singleton.mp hs]
        exact hObb

/-- Witness for the amended C1: in the lattice model, the L-shaped
envelope is contained in the orthogonal generator's OBB candidate. -/
theorem claim_C1_amended_witness :
    latticeOps.subsetG lShapePoints
      [((0 : ℤ), (0 : ℤ)), (0, 1), (1, 0), (1, 1)] = true :=
  (claim_C1_amended latticeOps lShapePoints [1/2] lattice_inter_subset
    (by decide) (by decide)).2 _ (by decide)

/-! ## Claim C3 -/

/-- C3 counterexample: a parcel whose face-aware derivation returns
`None` and whose uniform-buffer fallback is empty — the code substitutes
the original, unsetback lot polygon as the footprint, the pipeline does
not skip the lot, and the stacking loop then builds two floors from that
substitute footprint (rather than recording a zero-floor massing). -/
theorem claim_C3_counterexample :
    derivedViaFaces latticeOps c3InitInputs = none ∧
    latticeOps.isEmptyG c3InitInputs.bufferNegResult = true ∧
    c3InitInputs.lotEmptyOrZeroArea = false ∧
    initializeBaseFootprint latticeOps c3InitInputs = lShapePoints ∧
    pipelineSkipsLot latticeOps c3InitInputs = false ∧
    (generateFloors c3StackParams 4).length = 2 := by
  have hinit : initializeBaseFootprint latticeOps c3InitInputs =
      lShapePoints := by
    norm_num [initializeBaseFootprint, derivedViaFaces, latticeOps,
      c3InitInputs, lotAreaEps]
  have hP : c3StackParams =
      { sampleStackParams with
          lotArea := 3
          baseArea := 3
          baseEmpty := false } := by
    unfold c3StackParams
    rw [hinit]
    norm_num [latticeOps, c3InitInputs, lShapePoints]
  refine ⟨rfl, rfl, rfl, hinit, ?_, ?_⟩
  · unfold pipelineSkipsLot
    rw [hinit]
    norm_num [latticeOps, lShapePoints]
  · rw [hP]
    norm_num [generateFloors, generateFloorsTol, generateFloorsTolAux,
      stackStepTol, floorHeightFor, sampleStackParams, lotAreaEps,
      heightCapFactor, farCapFactor]

/-- C3 (amended): when the face-aware derivation fails and the selected
fallback geometry is empty while the lot polygon itself is non-degenerate,
`_initialize_base_footprint` substitutes the validated original lot
polygon (without setbacks) as the footprint — it does not record a
zero-floor massing; the lot is skipped only when even that footprint is
empty. -/
theorem claim_C3_amended {G : Type} (ops : GeomOps G) (inp : InitInputs G)
    (hlot : inp.lotEmptyOrZeroArea = false)
    (hfaces : derivedViaFaces ops inp = none)
    (hbuf : ops.isEmptyG
      (if lotAreaEps <
          min inp.minFrontSetback (min inp.minBackSetback inp.minSideSetback)
        then inp.bufferNegResult else inp.lotOriginal) = true) :
    initializeBaseFootprint ops inp = ops.makeValidG inp.lotOriginal ∧
    pipelineSkipsLot ops inp =
      ops.isEmptyG (ops.makeValidG inp.lotOriginal) := by
  have hmain : initializeBaseFootprint ops inp =
      ops.makeValidG inp.lotOriginal := by
    unfold initializeBaseFootprint
    rw [hlot]
    simp only [Bool.false_eq_true, if_false, hfaces, hbuf, if_true]
  exact ⟨hmain, by rw [pipelineSkipsLot, hmain]⟩

/-- Witness for the amended C3 at the concrete lattice scenario. -/
theorem claim_C3_amended_witness :
    initializeBaseFootprint latticeOps c3InitInputs =
      latticeOps.makeValidG c3InitInputs.lotOriginal ∧
    pipelineSkipsLot latticeOps c3InitInputs =
      latticeOps.isEmptyG (latticeOps.makeValidG c3InitInputs.lotOriginal) :=
  claim_C3_amended latticeOps c3InitInputs rfl rfl
    (by norm_num [latticeOps, c3InitInputs, lotAreaEps])

end Cogniticy
